import Mathlib

/-!
Verification development for the smartpool repository (files smartpool.py and
poolmysql.py), a pool of reusable stateful database connections.

The embedding has two layers, mirroring the two source files.

Pool layer (smartpool.py): the pool observes of each pooled connection only
its idle seconds and whether any weakref proxy to it is outstanding (the
code's busy test is weakref.getweakrefcount(conn) >= 1).  A connection is
therefore modelled as a record of an identity (standing for the Python
object identity id(conn), used by list remove), its idle seconds and a
checkedOut flag.  Python's sorted(key=...) is a stable sort on the key;
it is modelled by List.insertionSort on the corresponding relation.

Connection layer (poolmysql.py): MySQLdbConnection is modelled by its
client-side state (_conn, _locks, _in_trans) together with the set of
advisory locks actually held by the current server session (serverLocks),
which determines the result of RELEASE_LOCK.  The wall-clock bookkeeping
(_last_active_time) only feeds the pool layer's idle field and is not
duplicated here; database calls are modelled at the state level, assuming a
live session where the source would perform I/O.
-/

/-- Pool-layer view of one pooled connection: Python object identity,
idle seconds (the idle property) and whether a weakref proxy is outstanding
(weakref.getweakrefcount >= 1, the pool's checked-out test). -/
structure Conn where
  id : Nat
  idle : Nat
  checkedOut : Bool
deriving DecidableEq, Repr

/-- State of ConnectionPool (smartpool.py lines 159-171): the list _pool, the
configuration fields, and the cleaning counter.  nextId is a modelling device
producing fresh Python object identities for newly constructed connections. -/
structure ConnectionPool where
  pool : List Conn
  min : Nat
  max : Nat
  maxidle : Nat
  clean_interval : Nat
  clean_counter : Nat
  nextId : Nat
deriving DecidableEq, Repr

/-- ConnectionPool.__init__ (lines 160-170): _max is minnum when maxnum is
None, otherwise maxnum; the pool starts empty with the counter at 0. -/
def ConnectionPool.init (minnum : Nat) (maxnum : Option Nat) (maxidle : Nat)
    (clean_interval : Nat) : ConnectionPool :=
  { pool := [], min := minnum, max := maxnum.getD minnum, maxidle := maxidle,
    clean_interval := clean_interval, clean_counter := 0, nextId := 0 }

/-- busy_array (lines 182-184): the whole _pool sorted by ascending idle. -/
def ConnectionPool.busy_array (p : ConnectionPool) : List Conn :=
  List.insertionSort (fun a b => a.idle ≤ b.idle) p.pool

/-- idle_array (lines 186-188): the whole _pool sorted by descending idle
(sorted with reverse=True). -/
def ConnectionPool.idle_array (p : ConnectionPool) : List Conn :=
  List.insertionSort (fun a b => b.idle ≤ a.idle) p.pool

/-- total (lines 190-192): len(self._pool). -/
def ConnectionPool.total (p : ConnectionPool) : Nat :=
  p.pool.length

/-- idle (lines 194-200): the number of pooled connections with no
outstanding weakref (weakrefcount < 1). -/
def ConnectionPool.idle (p : ConnectionPool) : Nat :=
  p.pool.countP (fun c => !c.checkedOut)

/-- Python attribute lookup for the name deep on a ConnectionPool instance.
Neither the class nor the instance defines any attribute named deep
(the identifier occurs nowhere else in smartpool.py or poolmysql.py),
so the lookup fails. -/
def ConnectionPool.deepAttr (_p : ConnectionPool) : Option Nat :=
  none

/-- Python AttributeError, raised when attribute lookup fails. -/
inductive PyError where
  | attributeError
deriving DecidableEq, Repr

/-- used (lines 202-204): returns self.deep - self.idle.  The attribute
lookup of deep is modelled explicitly; when it fails the property raises. -/
def ConnectionPool.used (p : ConnectionPool) : Except PyError Nat :=
  match p.deepAttr with
  | none => Except.error PyError.attributeError
  | some d => Except.ok (d - p.idle)

/-- The collection loop of _clean (lines 220-225): walk the given list in
order, append every connection whose idle exceeds maxidle to found, and stop
as soon as found has reached tot elements. -/
def collectOverIdle : List Conn → Nat → Nat → List Conn → List Conn
  | [], _, _, found => found
  | c :: rest, maxidle, tot, found =>
    if maxidle < c.idle then
      if tot ≤ (found ++ [c]).length then found ++ [c]
      else collectOverIdle rest maxidle tot (found ++ [c])
    else collectOverIdle rest maxidle tot found

/-- list.remove by Python object identity: delete the first element whose
identity matches (default __eq__ is identity). -/
def eraseById : List Conn → Nat → List Conn
  | [], _ => []
  | c :: rest, i => if c.id = i then rest else c :: eraseById rest i

/-- The removal loop of _clean (lines 231-233): self._pool.remove(conn) for
each collected connection, before any close. -/
def removeConns (pool : List Conn) (found : List Conn) : List Conn :=
  found.foldl (fun l c => eraseById l c.id) pool

/-- _clean (lines 207-239).  The counter is reset first; if the pool is not
larger than min, or no idle connection exists, nothing happens; otherwise up
to (total - min) over-idle connections are collected from idle_array, removed
from _pool first, then closed.  Returns the new state and the closed list. -/
def ConnectionPool.clean (p0 : ConnectionPool) : ConnectionPool × List Conn :=
  let p : ConnectionPool := { p0 with clean_counter := 0 }
  if p.total ≤ p.min then (p, [])
  else if p.idle < 1 then (p, [])
  else
    let found := collectOverIdle p.idle_array p.maxidle (p.total - p.min) []
    if found.length < 1 then (p, [])
    else ({ p with pool := removeConns p.pool found }, found)

/-- _pop_idle (lines 242-249): walk busy_array (ascending idle), skip
connections with an outstanding weakref, return the first free one. -/
def ConnectionPool.pop_idle (p : ConnectionPool) : Option Conn :=
  p.busy_array.find? (fun c => !c.checkedOut)

/-- Creating the weakref proxy for a granted connection makes its
weakrefcount positive: mark it checked out. -/
def markCheckedOut (pool : List Conn) (i : Nat) : List Conn :=
  pool.map (fun c => if c.id = i then { c with checkedOut := true } else c)

/-- Everything get() produces: the successor pool state, the identity of the
granted connection if any, whether it was newly constructed, whether the
cleanup pass ran during this call, and the connections that pass closed. -/
structure GetResult where
  state : ConnectionPool
  granted : Option Nat
  isNew : Bool
  cleanRan : Bool
  closed : List Conn
deriving DecidableEq, Repr

/-- get (lines 252-290): run _clean when the counter has reached
clean_interval, then increment the counter; grant the first free connection
of busy_array if one exists (marking it checked out); otherwise construct,
connect and grant a new connection when total < max; otherwise return None.
A new connection has idle 0 (connect stamps _last_active_time) and is
checked out (the returned weakref proxy is outstanding). -/
def ConnectionPool.get (p0 : ConnectionPool) : GetResult :=
  let doClean := p0.clean_interval ≤ p0.clean_counter
  let cleaned := if doClean then p0.clean else (p0, [])
  let p1 := cleaned.1
  let p2 : ConnectionPool := { p1 with clean_counter := p1.clean_counter + 1 }
  match p2.pop_idle with
  | some c =>
    { state := { p2 with pool := markCheckedOut p2.pool c.id },
      granted := some c.id, isNew := false, cleanRan := decide doClean,
      closed := cleaned.2 }
  | none =>
    if p2.total < p2.max then
      { state :=
        { p2 with
          pool := p2.pool ++ [{ id := p2.nextId, idle := 0, checkedOut := true }],
          nextId := p2.nextId + 1 },
        granted := some p2.nextId, isNew := true, cleanRan := decide doClean,
        closed := cleaned.2 }
    else
      { state := p2, granted := none, isNew := false, cleanRan := decide doClean,
        closed := cleaned.2 }

/-- Environment step: the last weakref proxy to connection i is dropped
(the holder released it), so it is no longer checked out. -/
def ConnectionPool.dropRef (p : ConnectionPool) (i : Nat) : ConnectionPool :=
  { p with pool :=
      (p.pool.map (fun c => if c.id = i then { c with checkedOut := false } else c)) }

/-- Environment step: time passes or activity restamps _last_active_time,
so the idle seconds of connection i become n. -/
def ConnectionPool.age (p : ConnectionPool) (i n : Nat) : ConnectionPool :=
  { p with pool :=
      (p.pool.map (fun c => if c.id = i then { c with idle := n } else c)) }

/-- One transition of the pool: a get() call, a proxy drop, or the idle
clock of one connection changing. -/
inductive PoolStep : ConnectionPool → ConnectionPool → Prop
  | get (p : ConnectionPool) : PoolStep p p.get.state
  | drop (p : ConnectionPool) (i : Nat) : PoolStep p (p.dropRef i)
  | age (p : ConnectionPool) (i n : Nat) : PoolStep p (p.age i n)

/-- Reachability of pool states under PoolStep. -/
def ReachableFrom (p q : ConnectionPool) : Prop :=
  Relation.ReflTransGen PoolStep p q

/-- Underlying MySQLdb connection object (self._conn when not None): all the
model needs of it is whether the server session is still alive, which
determines the outcome of self._conn.ping(). -/
structure Session where
  live : Bool
deriving DecidableEq, Repr

/-- Client-side state of MySQLdbConnection (poolmysql.py lines 130-138)
together with serverLocks, the advisory locks actually held by the current
server session, which determines the result of RELEASE_LOCK. -/
structure MySQLdbConnection where
  conn : Option Session
  locks : List String
  in_trans : Bool
  serverLocks : List String
deriving DecidableEq, Repr

/-- has_lock (lines 147-149): len(self._locks) > 0. -/
def MySQLdbConnection.has_lock (c : MySQLdbConnection) : Bool :=
  0 < c.locks.length

/-- reusable (lines 153-155): not (in_trans or has_lock). -/
def MySQLdbConnection.reusable (c : MySQLdbConnection) : Bool :=
  !(c.in_trans || c.has_lock)

/-- ping (lines 165-174): False when _conn is None, otherwise True unless
the underlying ping raises (a dead session). -/
def MySQLdbConnection.ping (c : MySQLdbConnection) : Bool :=
  match c.conn with
  | none => false
  | some s => s.live

/-- connect (lines 177-181): replace _conn with a freshly opened session in
autocommit mode.  A fresh server session holds no advisory locks, and the
client-side _locks and _in_trans flags are not touched. -/
def MySQLdbConnection.connect (c : MySQLdbConnection) : MySQLdbConnection :=
  { c with conn := some { live := true }, serverLocks := [] }

/-- rollback (lines 260-262): execute rollback, then clear _in_trans. -/
def MySQLdbConnection.rollback (c : MySQLdbConnection) : MySQLdbConnection :=
  { c with in_trans := false }

/-- commit (lines 264-266): execute commit, then clear _in_trans. -/
def MySQLdbConnection.commit (c : MySQLdbConnection) : MySQLdbConnection :=
  { c with in_trans := false }

/-- begin (lines 253-258): raise when already inside a transaction,
otherwise execute begin and set _in_trans. -/
def MySQLdbConnection.begin (c : MySQLdbConnection) : Except Unit MySQLdbConnection :=
  if c.in_trans then Except.error ()
  else Except.ok { c with in_trans := true }

/-- release (lines 276-282): RELEASE_LOCK(key) returns 1 exactly when the
current session holds the lock, and the server then drops it; on success the
key is also removed from the client-side _locks when present. -/
def MySQLdbConnection.release (c : MySQLdbConnection) (key : String) :
    MySQLdbConnection × Bool :=
  let released := c.serverLocks.contains key
  let c1 : MySQLdbConnection := { c with serverLocks := c.serverLocks.erase key }
  if released && c1.locks.contains key then
    ({ c1 with locks := c1.locks.erase key }, released)
  else (c1, released)

/-- One Python for-iteration state of the loop for key in self._locks:
self.release(key) inside make_reusable (lines 198-200).  Python iterates the
list object by position while release mutates that same list, so the loop
reads the element at the current index of the current list and stops when the
index falls outside it.  The index grows by one per iteration and release
never lengthens _locks, so the loop makes at most the initial length many
iterations; the fuel argument only bounds the recursion and, at the value
passed by releaseLoop below, is never exhausted. -/
def releaseLoopAux : Nat → MySQLdbConnection → Nat → MySQLdbConnection
  | 0, c, _ => c
  | fuel + 1, c, i =>
    if h : i < c.locks.length then
      releaseLoopAux fuel (c.release c.locks[i]).1 (i + 1)
    else c

/-- The whole for key in self._locks loop, started at index 0 with enough
fuel for every possible iteration. -/
def releaseLoop (c : MySQLdbConnection) (i : Nat) : MySQLdbConnection :=
  releaseLoopAux (c.locks.length + 1) c i

/-- make_reusable (lines 194-200): roll back when inside a transaction, then
release the held locks by iterating over the mutating _locks list. -/
def MySQLdbConnection.make_reusable (c0 : MySQLdbConnection) : MySQLdbConnection :=
  let c1 := if c0.in_trans then c0.rollback else c0
  if c1.has_lock then releaseLoop c1 0 else c1

/-- Which repair action the grant path of get() took on the granted
connection. -/
inductive FixupAct where
  | didConnect
  | didMakeReusable
  | untouched
deriving DecidableEq, Repr

/-- The post-grant repair in get (smartpool.py lines 266-273): ping the
granted connection; when the ping fails, connect; otherwise (elif), when it
is not reusable, make_reusable. -/
def grantFixup (c : MySQLdbConnection) : MySQLdbConnection × FixupAct :=
  if !c.ping then (c.connect, FixupAct.didConnect)
  else if !c.reusable then (c.make_reusable, FixupAct.didMakeReusable)
  else (c, FixupAct.untouched)

/-- Error surface of a proxied call: the EmptyPoolError raised when no
connection can be granted, or a forwarded capability exception. -/
inductive LazyErr where
  | emptyPool
  | fwd (code : Nat)
deriving DecidableEq, Repr

/-- The finally block of lazy's wrap_func (smartpool.py lines 304-311),
applied to the connection state and outcome produced by the capability call:
when the connection reports reusable the binding is cleared, otherwise the
connection is kept in the local binding; the outcome passes through. -/
def afterCall {α : Type} (r : MySQLdbConnection × Except Nat α) :
    Except LazyErr α × Option MySQLdbConnection :=
  let nb := if r.1.reusable then none else some r.1
  match r.2 with
  | Except.ok v => (Except.ok v, nb)
  | Except.error e => (Except.error (LazyErr.fwd e), nb)

/-- wrap_func of lazy (smartpool.py lines 296-313): resolve the connection
from the execution unit's local binding, else from the pool; raise
EmptyPoolError when neither yields one; otherwise run the capability call op
(which may change the connection state and return a value or raise) and
apply the finally block.  Returns the call outcome and the new binding. -/
def lazyCall {α : Type} (binding : Option MySQLdbConnection)
    (poolConn : Option MySQLdbConnection)
    (op : MySQLdbConnection → MySQLdbConnection × Except Nat α) :
    Except LazyErr α × Option MySQLdbConnection :=
  match binding with
  | some c => afterCall (op c)
  | none =>
    match poolConn with
    | none => (Except.error LazyErr.emptyPool, none)
    | some c => afterCall (op c)

/-- Calls the transaction context manager itself makes on the connection. -/
inductive TxCall where
  | callBegin
  | callCommit
  | callRollback
deriving DecidableEq, Repr

/-- How a run of the transaction scope ends exceptionally: begin refused a
nested transaction, or the body raised. -/
inductive TxOutcome where
  | nested
  | bodyExc (code : Nat)
deriving DecidableEq, Repr

/-- transaction (poolmysql.py lines 70-98): create the Job marker, call
begin (which may raise on a nested transaction), run the body (modelled as a
function from the connection state to a new state, an optional raised
exception, and whether trans.finish() was called); on a body exception roll
back and re-raise; on normal exit commit when the marker was finished,
otherwise roll back.  Returns the final connection state, the list of
begin/commit/rollback calls the scope itself performed, in order, and the
propagated exception if any. -/
def transactionRun (c : MySQLdbConnection)
    (body : MySQLdbConnection → MySQLdbConnection × Option Nat × Bool) :
    MySQLdbConnection × List TxCall × Option TxOutcome :=
  match c.begin with
  | Except.error _ => (c, [TxCall.callBegin], some TxOutcome.nested)
  | Except.ok c1 =>
    match body c1 with
    | (c2, some e, _) =>
      (c2.rollback, [TxCall.callBegin, TxCall.callRollback], some (TxOutcome.bodyExc e))
    | (c2, none, finished) =>
      if finished then (c2.commit, [TxCall.callBegin, TxCall.callCommit], none)
      else (c2.rollback, [TxCall.callBegin, TxCall.callRollback], none)

/-- Example: a live connection holding two advisory locks, both actually
held by its server session. -/
def exConnTwoLocks : MySQLdbConnection :=
  { conn := some { live := true }, locks := ["a", "b"], in_trans := false,
    serverLocks := ["a", "b"] }

/-- Example: a live connection inside a transaction holding one advisory
lock. -/
def exConnOneLock : MySQLdbConnection :=
  { conn := some { live := true }, locks := ["a"], in_trans := true,
    serverLocks := ["a"] }

/-- Example: a connection whose underlying session is gone (ping fails)
while the client-side transaction flag is still set. -/
def exDeadInTrans : MySQLdbConnection :=
  { conn := none, locks := [], in_trans := true, serverLocks := [] }

/-- Example: a live, clean, reusable connection. -/
def exFreshConn : MySQLdbConnection :=
  { conn := some { live := true }, locks := [], in_trans := false,
    serverLocks := [] }

/-- Example pool: three connections, one checked out and idle for 100
seconds, two free and recently used; min 1, maxidle 60. -/
def exPoolThree : ConnectionPool :=
  { pool := [{ id := 1, idle := 100, checkedOut := true },
             { id := 2, idle := 10, checkedOut := false },
             { id := 3, idle := 5, checkedOut := false }],
    min := 1, max := 3, maxidle := 60, clean_interval := 100,
    clean_counter := 7, nextId := 4 }

/-- Example pool: a single free connection. -/
def exPoolOne : ConnectionPool :=
  { pool := [{ id := 1, idle := 5, checkedOut := false }], min := 1, max := 1,
    maxidle := 60, clean_interval := 100, clean_counter := 0, nextId := 2 }

/-- Example pool: exhausted, its single connection checked out and
total = max. -/
def exPoolFull : ConnectionPool :=
  { pool := [{ id := 1, idle := 3, checkedOut := true }], min := 1, max := 1,
    maxidle := 60, clean_interval := 100, clean_counter := 0, nextId := 2 }

/-- Example capability call: returns 7 and leaves the connection state
unchanged. -/
def exOpOk : MySQLdbConnection → MySQLdbConnection × Except Nat Nat :=
  fun c => (c, Except.ok 7)

/-- Example capability call: starts a transaction on the connection and then
raises exception code 3. -/
def exOpFail : MySQLdbConnection → MySQLdbConnection × Except Nat Nat :=
  fun c => ({ c with in_trans := true }, Except.error 3)

/-- Example transaction body: changes nothing, marks the finish marker. -/
def exBodyFinishes : MySQLdbConnection → MySQLdbConnection × Option Nat × Bool :=
  fun c => (c, none, true)


theorem eraseById_length_le (l : List Conn) (i : Nat) :
    (eraseById l i).length ≤ l.length := by
  induction l with
  | nil => simp [eraseById]
  | cons c rest ih =>
    simp only [eraseById]
    split
    · simp
    · simpa using Nat.succ_le_succ ih

theorem eraseById_length_ge (l : List Conn) (i : Nat) :
    l.length - 1 ≤ (eraseById l i).length := by
  induction l with
  | nil => simp [eraseById]
  | cons c rest ih =>
    simp only [eraseById]
    split
    · simp
    · simp only [List.length_cons]
      omega

theorem removeConns_length_le (found pool : List Conn) :
    (removeConns pool found).length ≤ pool.length := by
  induction found generalizing pool with
  | nil => simp [removeConns]
  | cons c rest ih =>
    simp only [removeConns, List.foldl_cons] at ih ⊢
    exact le_trans (ih (eraseById pool c.id)) (eraseById_length_le pool c.id)

theorem removeConns_length_ge (found pool : List Conn) :
    pool.length - found.length ≤ (removeConns pool found).length := by
  induction found generalizing pool with
  | nil => simp [removeConns]
  | cons c rest ih =>
    simp only [removeConns, List.foldl_cons, List.length_cons] at ih ⊢
    have h1 := ih (eraseById pool c.id)
    have h2 := eraseById_length_ge pool c.id
    omega

theorem collectOverIdle_length_le (l : List Conn) (mi tot : Nat) :
    ∀ found : List Conn, found.length < tot →
      (collectOverIdle l mi tot found).length ≤ tot := by
  induction l with
  | nil => intro found h; simpa [collectOverIdle] using Nat.le_of_lt h
  | cons c rest ih =>
    intro found h
    simp only [collectOverIdle]
    split
    · split
      · simpa using h
      · exact ih (found ++ [c]) (by simp at *; omega)
    · exact ih found h

theorem clean_total_le (p : ConnectionPool) : (p.clean).1.total ≤ p.total := by
  simp only [ConnectionPool.clean, ConnectionPool.total]
  split
  · exact le_refl _
  · split
    · exact le_refl _
    · split
      · exact le_refl _
      · exact removeConns_length_le _ _

theorem clean_total_ge (p : ConnectionPool) :
    Nat.min p.min p.total ≤ (p.clean).1.total := by
  simp only [ConnectionPool.clean, ConnectionPool.total]
  split
  · simp only [Nat.min_def]; split <;> omega
  · split
    · simp only [Nat.min_def]; split <;> omega
    · split
      · simp only [Nat.min_def]; split <;> omega
      · rename_i hbig hidle hfound
        have hcol := collectOverIdle_length_le
          ({ p with clean_counter := 0 } : ConnectionPool).idle_array
          p.maxidle (p.pool.length - p.min) []
          (by simp only [List.length_nil]; omega)
        have hrem := removeConns_length_ge
          (collectOverIdle ({ p with clean_counter := 0 } : ConnectionPool).idle_array
            p.maxidle (p.pool.length - p.min) []) p.pool
        simp only [ConnectionPool.total] at *
        simp only [Nat.min_def]
        split <;> omega

theorem clean_min (p : ConnectionPool) : (p.clean).1.min = p.min := by
  simp only [ConnectionPool.clean]
  split
  · rfl
  · split
    · rfl
    · split <;> rfl

theorem clean_max (p : ConnectionPool) : (p.clean).1.max = p.max := by
  simp only [ConnectionPool.clean]
  split
  · rfl
  · split
    · rfl
    · split <;> rfl

theorem clean_interval_eq (p : ConnectionPool) :
    (p.clean).1.clean_interval = p.clean_interval := by
  simp only [ConnectionPool.clean]
  split
  · rfl
  · split
    · rfl
    · split <;> rfl

theorem clean_counter_eq (p : ConnectionPool) : (p.clean).1.clean_counter = 0 := by
  simp only [ConnectionPool.clean]
  split
  · rfl
  · split
    · rfl
    · split <;> rfl

theorem clean_nextId (p : ConnectionPool) : (p.clean).1.nextId = p.nextId := by
  simp only [ConnectionPool.clean]
  split
  · rfl
  · split
    · rfl
    · split <;> rfl

theorem clean_pool_of_no_idle (p : ConnectionPool) (h : p.idle = 0) :
    (p.clean).1.pool = p.pool := by
  simp only [ConnectionPool.clean]
  split
  · rfl
  · split
    · rfl
    · rename_i hidle
      exfalso
      apply hidle
      have : ({ p with clean_counter := 0 } : ConnectionPool).idle = p.idle := rfl
      omega

theorem get_cleanRan (p : ConnectionPool) :
    p.get.cleanRan = decide (p.clean_interval ≤ p.clean_counter) := by
  simp only [ConnectionPool.get]
  repeat' split
  all_goals rfl

theorem get_state_min (p : ConnectionPool) : p.get.state.min = p.min := by
  simp only [ConnectionPool.get]
  repeat' split
  all_goals first | rfl | exact clean_min p

theorem get_state_max (p : ConnectionPool) : p.get.state.max = p.max := by
  simp only [ConnectionPool.get]
  repeat' split
  all_goals first | rfl | exact clean_max p

theorem get_state_interval (p : ConnectionPool) :
    p.get.state.clean_interval = p.clean_interval := by
  simp only [ConnectionPool.get]
  repeat' split
  all_goals first | rfl | exact clean_interval_eq p

theorem get_state_counter (p : ConnectionPool) :
    p.get.state.clean_counter
      = (if p.clean_interval ≤ p.clean_counter then 0 else p.clean_counter) + 1 := by
  simp only [ConnectionPool.get]
  repeat' split
  all_goals simp_all [clean_counter_eq]

theorem markCheckedOut_length (l : List Conn) (i : Nat) :
    (markCheckedOut l i).length = l.length := by
  simp [markCheckedOut]

theorem get_total_le (p : ConnectionPool) (h : p.total ≤ p.max) :
    p.get.state.total ≤ p.get.state.max := by
  have hc := clean_total_le p
  have hm := clean_max p
  rw [get_state_max]
  simp only [ConnectionPool.get, ConnectionPool.total] at *
  repeat' split
  all_goals simp_all [markCheckedOut, ConnectionPool.total]
  all_goals omega

theorem dropRef_total (p : ConnectionPool) (i : Nat) :
    (p.dropRef i).total = p.total := by
  simp [ConnectionPool.dropRef, ConnectionPool.total]

theorem age_total (p : ConnectionPool) (i n : Nat) :
    (p.age i n).total = p.total := by
  simp [ConnectionPool.age, ConnectionPool.total]

theorem step_preserved {p q : ConnectionPool} (hs : PoolStep p q) :
    q.min = p.min ∧ q.max = p.max ∧ (p.total ≤ p.max → q.total ≤ q.max) := by
  cases hs with
  | get =>
    exact ⟨get_state_min p, get_state_max p, fun h => get_total_le p h⟩
  | drop i =>
    refine ⟨rfl, rfl, fun h => ?_⟩
    rw [dropRef_total]
    exact h
  | age i n =>
    refine ⟨rfl, rfl, fun h => ?_⟩
    rw [age_total]
    exact h

theorem reach_preserved {p q : ConnectionPool} (h : ReachableFrom p q)
    (hp : p.total ≤ p.max) :
    q.min = p.min ∧ q.max = p.max ∧ q.total ≤ q.max := by
  induction h with
  | refl => exact ⟨rfl, rfl, hp⟩
  | tail _ hbc ih =>
    obtain ⟨h1, h2, h3⟩ := ih
    obtain ⟨g1, g2, g3⟩ := step_preserved hbc
    exact ⟨g1.trans h1, g2.trans h2, g3 h3⟩

theorem busy_array_perm (p : ConnectionPool) : p.busy_array.Perm p.pool :=
  List.perm_insertionSort _ _

theorem busy_array_sorted (p : ConnectionPool) :
    p.busy_array.Pairwise (fun a b => a.idle ≤ b.idle) :=
  @List.sorted_insertionSort Conn (fun a b => a.idle ≤ b.idle)
    (fun a b => Nat.decLe a.idle b.idle)
    ⟨fun a b => Nat.le_total a.idle b.idle⟩
    ⟨fun _ _ _ hab hbc => Nat.le_trans hab hbc⟩ p.pool

theorem find_first_min (l : List Conn)
    (hs : l.Pairwise (fun a b => a.idle ≤ b.idle)) (x : Conn)
    (hf : l.find? (fun c => !c.checkedOut) = some x) :
    x ∈ l ∧ x.checkedOut = false ∧
      ∀ y ∈ l, y.checkedOut = false → x.idle ≤ y.idle := by
  induction l with
  | nil => simp [List.find?] at hf
  | cons c rest ih =>
    rw [List.pairwise_cons] at hs
    by_cases hc : c.checkedOut
    · simp only [List.find?, hc, Bool.not_true] at hf
      obtain ⟨hx, hco, hmin⟩ := ih hs.2 hf
      refine ⟨List.mem_cons_of_mem _ hx, hco, ?_⟩
      intro y hy hyco
      rcases List.mem_cons.mp hy with hy1 | hy2
      · rw [hy1] at hyco
        rw [hyco] at hc
        exact absurd hc (by simp)
      · exact hmin y hy2 hyco
    · have hcb : c.checkedOut = false := by simpa using hc
      simp only [List.find?, hcb, Bool.not_false] at hf
      have hx : x = c := by
        cases hf
        rfl
      subst hx
      refine ⟨List.mem_cons_self _ _, hcb, ?_⟩
      intro y hy _
      rcases List.mem_cons.mp hy with hy1 | hy2
      · rw [hy1]
      · exact hs.1 y hy2

theorem pop_idle_spec (p : ConnectionPool) (x : Conn) (hf : p.pop_idle = some x) :
    x ∈ p.pool ∧ x.checkedOut = false ∧
      ∀ y ∈ p.pool, y.checkedOut = false → x.idle ≤ y.idle := by
  have hperm := busy_array_perm p
  obtain ⟨hx, hco, hmin⟩ := find_first_min p.busy_array (busy_array_sorted p) x hf
  exact ⟨hperm.mem_iff.mp hx, hco,
    fun y hy hyco => hmin y (hperm.mem_iff.mpr hy) hyco⟩

theorem pop_idle_none (p : ConnectionPool) (h : ∀ c ∈ p.pool, c.checkedOut = true) :
    p.pop_idle = none := by
  rw [ConnectionPool.pop_idle, List.find?_eq_none]
  intro x hx
  have hxp : x ∈ p.pool := (busy_array_perm p).mem_iff.mp hx
  simp [h x hxp]

theorem clean_eq_of_no_idle (p : ConnectionPool) (h : p.idle = 0) :
    p.clean = ({ p with clean_counter := 0 }, []) := by
  rw [ConnectionPool.clean]
  split
  · rfl
  · split
    · rfl
    · rename_i hidle
      exfalso
      apply hidle
      have heq : ({ p with clean_counter := 0 } : ConnectionPool).idle = p.idle := rfl
      omega

theorem get_exhausted (p : ConnectionPool) (hall : ∀ c ∈ p.pool, c.checkedOut = true)
    (hfull : p.total = p.max) :
    p.get.granted = none ∧ p.get.state.pool = p.pool := by
  have hidle : p.idle = 0 := by
    rw [ConnectionPool.idle]
    rw [List.countP_eq_zero]
    intro a ha
    simp [hall a ha]
  have hfind : ∀ q : ConnectionPool, q.pool = p.pool → q.pop_idle = none := by
    intro q hq
    refine pop_idle_none q ?_
    rw [hq]
    exact hall
  have hnotlt : ¬ p.pool.length < p.max := by
    rw [ConnectionPool.total] at hfull
    omega
  by_cases hD : p.clean_interval ≤ p.clean_counter
  · simp only [ConnectionPool.get, if_pos hD, clean_eq_of_no_idle p hidle]
    rw [hfind { p with clean_counter := 0 + 1 } rfl]
    simp only [ConnectionPool.total]
    rw [if_neg hnotlt]
    exact ⟨rfl, rfl⟩
  · simp only [ConnectionPool.get, if_neg hD]
    rw [hfind { p with clean_counter := p.clean_counter + 1 } rfl]
    simp only [ConnectionPool.total]
    rw [if_neg hnotlt]
    exact ⟨rfl, rfl⟩

/-- C1: the claim states that make_reusable() always leaves the connection
reusable, in particular when two or more distinct advisory lock keys are
held.  It does not: releasing iterates over the _locks list while release
removes from that same list, so with the two held keys a and b only a is
released and the connection stays non-reusable; with a single lock (and an
open transaction) it does work. -/
theorem c1_make_reusable_leaves_lock_held :
    exConnTwoLocks.make_reusable.locks = ["b"]
    ∧ exConnTwoLocks.make_reusable.reusable = false
    ∧ exConnOneLock.make_reusable.reusable = true := by
  decide

/-- C2: the claim states a cleanup pass scans only idle (not checked-out)
resources and never evicts a checked-out one.  The code scans idle_array,
which is the whole pool sorted by descending idle with no checked-out
filter: on exPoolThree the pass removes and closes exactly the connection
with id 1, which is checked out, keeping the two genuinely idle ones. -/
theorem c2_clean_evicts_checked_out_connection :
    exPoolThree.clean.2 = [{ id := 1, idle := 100, checkedOut := true }]
    ∧ (∀ c ∈ exPoolThree.clean.2, c.checkedOut = true)
    ∧ exPoolThree.clean.1.pool
        = [{ id := 2, idle := 10, checkedOut := false },
           { id := 3, idle := 5, checkedOut := false }] := by
  decide

/-- C9: the claim states the used metric equals total minus idleCount.  The
code computes self.deep - self.idle, and no attribute deep exists anywhere,
so reading used raises AttributeError on every pool state instead of
returning total - idle. -/
theorem c9_used_raises_attribute_error (p : ConnectionPool) :
    p.used = Except.error PyError.attributeError :=
  rfl

/-- C3 (counterexample): the claim states the granted handle is reusable on
the ping-failure path.  On a connection whose session is dead while the
transaction flag is set, the fixup takes the connect branch (the reusable
check is behind an elif), and the returned handle is live but still not
reusable. -/
theorem c3_ping_failure_path_returns_unreusable :
    exDeadInTrans.ping = false
    ∧ (grantFixup exDeadInTrans).2 = FixupAct.didConnect
    ∧ (grantFixup exDeadInTrans).1.ping = true
    ∧ (grantFixup exDeadInTrans).1.reusable = false := by
  decide

/-- C3 (amended): get() grants the free connection with the smallest idle
time; the fixup then pings it, on ping failure calls connect (only), making
the handle live but not checking reusability on that path, and only on ping
success with a non-reusable connection calls make_reusable; an already
reusable live connection is returned untouched. -/
theorem c3_grant_selects_warmest_and_repairs
    (p : ConnectionPool) (x : Conn) (c : MySQLdbConnection)
    (hx : p.pop_idle = some x) :
    (x ∈ p.pool ∧ x.checkedOut = false
      ∧ ∀ y ∈ p.pool, y.checkedOut = false → x.idle ≤ y.idle)
    ∧ (c.ping = false →
        grantFixup c = (c.connect, FixupAct.didConnect) ∧ c.connect.ping = true)
    ∧ (c.ping = true → c.reusable = false →
        grantFixup c = (c.make_reusable, FixupAct.didMakeReusable))
    ∧ (c.ping = true → c.reusable = true →
        grantFixup c = (c, FixupAct.untouched)) := by
  refine ⟨pop_idle_spec p x hx, ?_, ?_, ?_⟩
  · intro hping
    constructor
    · simp [grantFixup, hping]
    · simp [MySQLdbConnection.connect, MySQLdbConnection.ping]
  · intro hping hre
    simp [grantFixup, hping, hre]
  · intro hping hre
    simp [grantFixup, hping, hre]

/-- Witness for C3 (amended), at a one-connection pool and a dead
non-reusable connection. -/
theorem c3_grant_selects_warmest_and_repairs_witness :
    exPoolOne.pop_idle = some { id := 1, idle := 5, checkedOut := false }
    ∧ (({ id := 1, idle := 5, checkedOut := false } : Conn) ∈ exPoolOne.pool
        ∧ ({ id := 1, idle := 5, checkedOut := false } : Conn).checkedOut = false
        ∧ ∀ y ∈ exPoolOne.pool, y.checkedOut = false →
            ({ id := 1, idle := 5, checkedOut := false } : Conn).idle ≤ y.idle)
    ∧ (exDeadInTrans.ping = false →
        grantFixup exDeadInTrans = (exDeadInTrans.connect, FixupAct.didConnect)
          ∧ exDeadInTrans.connect.ping = true)
    ∧ (exDeadInTrans.ping = true → exDeadInTrans.reusable = false →
        grantFixup exDeadInTrans
          = (exDeadInTrans.make_reusable, FixupAct.didMakeReusable))
    ∧ (exDeadInTrans.ping = true → exDeadInTrans.reusable = true →
        grantFixup exDeadInTrans = (exDeadInTrans, FixupAct.untouched)) :=
  ⟨by decide,
    (c3_grant_selects_warmest_and_repairs exPoolOne
      { id := 1, idle := 5, checkedOut := false } exDeadInTrans (by decide)).1,
    (c3_grant_selects_warmest_and_repairs exPoolOne
      { id := 1, idle := 5, checkedOut := false } exDeadInTrans (by decide)).2.1,
    (c3_grant_selects_warmest_and_repairs exPoolOne
      { id := 1, idle := 5, checkedOut := false } exDeadInTrans (by decide)).2.2.1,
    (c3_grant_selects_warmest_and_repairs exPoolOne
      { id := 1, idle := 5, checkedOut := false } exDeadInTrans (by decide)).2.2.2⟩

/-- C4 (counterexample): the claim states total ≥ min immediately after any
cleanup pass whenever min ≤ max.  The pool never pre-fills to min: with
min = max = 2 and clean_interval = 1, after one get() (creating one
connection) and its release, the state is reachable, its next get() does run
the cleanup pass, min ≤ max holds, yet the pass leaves total = 1 < min. -/
theorem c4_total_below_min_after_clean :
    ReachableFrom (ConnectionPool.init 2 (some 2) 60 1)
      ((ConnectionPool.init 2 (some 2) 60 1).get.state.dropRef 0)
    ∧ ((ConnectionPool.init 2 (some 2) 60 1).get.state.dropRef 0).get.cleanRan = true
    ∧ ((ConnectionPool.init 2 (some 2) 60 1).get.state.dropRef 0).min
        ≤ ((ConnectionPool.init 2 (some 2) 60 1).get.state.dropRef 0).max
    ∧ ((ConnectionPool.init 2 (some 2) 60 1).get.state.dropRef 0).clean.1.total
        < ((ConnectionPool.init 2 (some 2) 60 1).get.state.dropRef 0).min := by
  refine ⟨?_, by decide, by decide, by decide⟩
  show Relation.ReflTransGen PoolStep _ _
  exact Relation.ReflTransGen.tail
    (Relation.ReflTransGen.tail Relation.ReflTransGen.refl (PoolStep.get _))
    (PoolStep.drop _ 0)

/-- C4 (amended): in every reachable pool state 0 ≤ total ≤ max (get()
creates a new connection only when total < max), and a cleanup pass never
removes connections below min: after a pass the total is at least the
smaller of min and the total before the pass.  Total ≥ min after a pass is
however not guaranteed, since the pool never pre-creates connections. -/
theorem c4_total_bounded_by_max (mn mi ci : Nat) (mx : Option Nat)
    (q : ConnectionPool)
    (h : ReachableFrom (ConnectionPool.init mn mx mi ci) q) :
    q.total ≤ q.max ∧ Nat.min q.min q.total ≤ q.clean.1.total := by
  have h0 : (ConnectionPool.init mn mx mi ci).total
      ≤ (ConnectionPool.init mn mx mi ci).max := by
    simp [ConnectionPool.init, ConnectionPool.total]
  obtain ⟨-, -, h3⟩ := reach_preserved h h0
  exact ⟨h3, clean_total_ge q⟩

/-- Witness for C4 (amended), at the freshly initialised pool. -/
theorem c4_total_bounded_by_max_witness :
    ReachableFrom (ConnectionPool.init 1 (some 2) 60 100)
      (ConnectionPool.init 1 (some 2) 60 100)
    ∧ (ConnectionPool.init 1 (some 2) 60 100).total
        ≤ (ConnectionPool.init 1 (some 2) 60 100).max
    ∧ Nat.min (ConnectionPool.init 1 (some 2) 60 100).min
        (ConnectionPool.init 1 (some 2) 60 100).total
        ≤ (ConnectionPool.init 1 (some 2) 60 100).clean.1.total :=
  ⟨Relation.ReflTransGen.refl,
    (c4_total_bounded_by_max 1 60 100 (some 2) _ Relation.ReflTransGen.refl).1,
    (c4_total_bounded_by_max 1 60 100 (some 2) _ Relation.ReflTransGen.refl).2⟩

/-- C5 (counterexample): the claim states the cleanup pass is triggered by
the cleanInterval-th get() call from a fresh counter.  With
clean_interval = 1 the first call does not run the pass; it runs at the
start of the second call. -/
theorem c5_interval_th_call_does_not_clean :
    (ConnectionPool.init 1 (some 1) 60 1).get.cleanRan = false
    ∧ (ConnectionPool.init 1 (some 1) 60 1).get.state.get.cleanRan = true := by
  exact ⟨by decide, by decide⟩

/-- C5 (amended): each get() checks the counter before incrementing it, so
from a fresh counter the counter equals the number of completed calls while
that number is at most cleanInterval, no pass runs during the first
cleanInterval calls, and the pass is triggered at the start of the
(cleanInterval+1)-th call, which also resets the counter. -/
theorem c5_clean_on_interval_plus_one (mn mi ci k : Nat) (mx : Option Nat)
    (hk : k ≤ ci) :
    ((fun q : ConnectionPool => q.get.state)^[k]
        (ConnectionPool.init mn mx mi ci)).clean_counter = k
    ∧ ((fun q : ConnectionPool => q.get.state)^[k]
        (ConnectionPool.init mn mx mi ci)).get.cleanRan = decide (k = ci) := by
  have hint : ∀ j : Nat,
      ((fun q : ConnectionPool => q.get.state)^[j]
        (ConnectionPool.init mn mx mi ci)).clean_interval = ci := by
    intro j
    induction j with
    | zero => rfl
    | succ j ih =>
      rw [Function.iterate_succ_apply']
      rw [get_state_interval]
      exact ih
  have hcnt : ∀ j : Nat, j ≤ ci →
      ((fun q : ConnectionPool => q.get.state)^[j]
        (ConnectionPool.init mn mx mi ci)).clean_counter = j := by
    intro j
    induction j with
    | zero => intro _; rfl
    | succ j ih =>
      intro hj
      rw [Function.iterate_succ_apply']
      rw [get_state_counter]
      have h1 := ih (Nat.le_of_succ_le hj)
      have h2 := hint j
      rw [h1, h2]
      rw [if_neg (by omega)]
  refine ⟨hcnt k hk, ?_⟩
  rw [get_cleanRan, hint k, hcnt k hk]
  simp only [decide_eq_decide]
  omega

/-- Witness for C5 (amended), with clean_interval 2 and k = 2: after two
calls the counter is 2 and the third call triggers the pass. -/
theorem c5_clean_on_interval_plus_one_witness :
    2 ≤ 2
    ∧ (((fun q : ConnectionPool => q.get.state)^[2]
        (ConnectionPool.init 1 (some 1) 60 2)).clean_counter = 2
    ∧ ((fun q : ConnectionPool => q.get.state)^[2]
        (ConnectionPool.init 1 (some 1) 60 2)).get.cleanRan = decide (2 = 2)) :=
  ⟨by decide, c5_clean_on_interval_plus_one 1 60 2 2 (some 1) (by decide)⟩

/-- C10: a pool constructed with maxnum omitted (None) has max = min, and
every state reachable from it keeps max = min = minnum and never holds more
than minnum connections. -/
theorem c10_default_max_equals_min (mn mi ci : Nat) (q : ConnectionPool)
    (h : ReachableFrom (ConnectionPool.init mn none mi ci) q) :
    q.max = mn ∧ q.min = mn ∧ q.total ≤ mn := by
  have h0 : (ConnectionPool.init mn none mi ci).total
      ≤ (ConnectionPool.init mn none mi ci).max := by
    simp [ConnectionPool.init, ConnectionPool.total]
  obtain ⟨h1, h2, h3⟩ := reach_preserved h h0
  have hmx : (ConnectionPool.init mn none mi ci).max = mn := rfl
  have hmn : (ConnectionPool.init mn none mi ci).min = mn := rfl
  rw [hmx] at h2
  rw [hmn] at h1
  exact ⟨h2, h1, by omega⟩

/-- Witness for C10, at the freshly initialised pool. -/
theorem c10_default_max_equals_min_witness :
    ReachableFrom (ConnectionPool.init 3 none 60 100)
      (ConnectionPool.init 3 none 60 100)
    ∧ (ConnectionPool.init 3 none 60 100).max = 3
    ∧ (ConnectionPool.init 3 none 60 100).min = 3
    ∧ (ConnectionPool.init 3 none 60 100).total ≤ 3 :=
  ⟨Relation.ReflTransGen.refl,
    (c10_default_max_equals_min 3 60 100 _ Relation.ReflTransGen.refl).1,
    (c10_default_max_equals_min 3 60 100 _ Relation.ReflTransGen.refl).2.1,
    (c10_default_max_equals_min 3 60 100 _ Relation.ReflTransGen.refl).2.2⟩

/-- C6: on an exhausted pool (every connection checked out and total = max)
get() grants nothing and leaves the pool unchanged, deterministically and
without blocking (the embedding is a total function), and a proxied
capability call with no bound connection and no grantable connection fails
with the EmptyPool error without any internal retry. -/
theorem c6_exhausted_get_none_and_empty_pool (p : ConnectionPool) {α : Type}
    (op : MySQLdbConnection → MySQLdbConnection × Except Nat α)
    (hall : ∀ c ∈ p.pool, c.checkedOut = true) (hfull : p.total = p.max) :
    p.get.granted = none ∧ p.get.state.pool = p.pool
    ∧ lazyCall none none op = (Except.error LazyErr.emptyPool, none) := by
  obtain ⟨h1, h2⟩ := get_exhausted p hall hfull
  exact ⟨h1, h2, rfl⟩

/-- Witness for C6, at a full one-connection pool. -/
theorem c6_exhausted_get_none_and_empty_pool_witness :
    (∀ c ∈ exPoolFull.pool, c.checkedOut = true)
    ∧ exPoolFull.total = exPoolFull.max
    ∧ (exPoolFull.get.granted = none ∧ exPoolFull.get.state.pool = exPoolFull.pool
        ∧ lazyCall none none exOpOk = (Except.error LazyErr.emptyPool, none)) :=
  ⟨by decide, by decide,
    c6_exhausted_get_none_and_empty_pool exPoolFull exOpOk (by decide) (by decide)⟩

/-- C7: for a proxied capability call that actually runs (the connection
came from the local binding, or from the pool when the binding was empty),
the new binding holds the post-call connection exactly when that connection
reports not reusable, and is cleared exactly when it reports reusable; a
normal result is returned unchanged and a raised exception is forwarded
unchanged. -/
theorem c7_binding_kept_iff_unreusable {α : Type}
    (binding poolConn : Option MySQLdbConnection) (c : MySQLdbConnection)
    (op : MySQLdbConnection → MySQLdbConnection × Except Nat α)
    (h : binding = some c ∨ (binding = none ∧ poolConn = some c)) :
    ((lazyCall binding poolConn op).2 = some (op c).1 ↔ (op c).1.reusable = false)
    ∧ ((lazyCall binding poolConn op).2 = none ↔ (op c).1.reusable = true)
    ∧ (∀ v, (op c).2 = Except.ok v →
        (lazyCall binding poolConn op).1 = Except.ok v)
    ∧ (∀ e, (op c).2 = Except.error e →
        (lazyCall binding poolConn op).1 = Except.error (LazyErr.fwd e)) := by
  have hcall : lazyCall binding poolConn op = afterCall (op c) := by
    rcases h with h | ⟨h1, h2⟩
    · rw [h]
      rfl
    · rw [h1, h2]
      rfl
  rw [hcall]
  cases hre : (op c).1.reusable <;> cases hop : (op c).2 <;>
    simp [afterCall, hre, hop]

/-- Witness for C7: the bound connection is put into a transaction by a
failing call, so the binding is kept and the exception forwarded. -/
theorem c7_binding_kept_iff_unreusable_witness :
    (some exFreshConn = some exFreshConn
      ∨ (some exFreshConn = none ∧ (none : Option MySQLdbConnection) = some exFreshConn))
    ∧ (((lazyCall (some exFreshConn) none exOpFail).2 = some (exOpFail exFreshConn).1
        ↔ (exOpFail exFreshConn).1.reusable = false)
      ∧ ((lazyCall (some exFreshConn) none exOpFail).2 = none
        ↔ (exOpFail exFreshConn).1.reusable = true)
      ∧ (∀ v, (exOpFail exFreshConn).2 = Except.ok v →
          (lazyCall (some exFreshConn) none exOpFail).1 = Except.ok v)
      ∧ (∀ e, (exOpFail exFreshConn).2 = Except.error e →
          (lazyCall (some exFreshConn) none exOpFail).1
            = Except.error (LazyErr.fwd e))) :=
  ⟨Or.inl rfl,
    c7_binding_kept_iff_unreusable (some exFreshConn) none exFreshConn exOpFail
      (Or.inl rfl)⟩

/-- C8: starting outside a transaction, the scoped transaction calls begin
first; when the body raises, rollback is called exactly once, commit never,
and the exception propagates after the rollback; when the body returns
normally, commit is called exactly once if the finish marker was marked and
rollback exactly once if it was not; commit and rollback are never both
called, and the connection always leaves the scope with the transaction
flag cleared. -/
theorem c8_transaction_scope (c c2 : MySQLdbConnection) (exc : Option Nat)
    (fin : Bool) (body : MySQLdbConnection → MySQLdbConnection × Option Nat × Bool)
    (h : c.in_trans = false)
    (hb : body { c with in_trans := true } = (c2, exc, fin)) :
    (transactionRun c body).2.1.head? = some TxCall.callBegin
    ∧ (transactionRun c body).2.1.count TxCall.callBegin = 1
    ∧ (transactionRun c body).2.1.count TxCall.callCommit
        = (if exc = none ∧ fin = true then 1 else 0)
    ∧ (transactionRun c body).2.1.count TxCall.callRollback
        = (if exc = none ∧ fin = true then 0 else 1)
    ∧ (transactionRun c body).2.2 = Option.map TxOutcome.bodyExc exc
    ∧ (transactionRun c body).1.in_trans = false
    ∧ (∀ e, exc = some e →
        (transactionRun c body).2.1 = [TxCall.callBegin, TxCall.callRollback]) := by
  have hbegin : c.begin = Except.ok { c with in_trans := true } := by
    simp [MySQLdbConnection.begin, h]
  cases exc with
  | some e =>
    cases fin <;>
      simp [transactionRun, hbegin, hb, MySQLdbConnection.rollback,
        MySQLdbConnection.commit, List.count_cons, List.count_nil]
  | none =>
    cases fin <;>
      simp [transactionRun, hbegin, hb, MySQLdbConnection.rollback,
        MySQLdbConnection.commit, List.count_cons, List.count_nil]

/-- Witness for C8: a clean connection and a body that marks the finish
marker and returns normally. -/
theorem c8_transaction_scope_witness :
    exFreshConn.in_trans = false
    ∧ exBodyFinishes { exFreshConn with in_trans := true }
        = ({ exFreshConn with in_trans := true }, none, true)
    ∧ ((transactionRun exFreshConn exBodyFinishes).2.1.head? = some TxCall.callBegin
      ∧ (transactionRun exFreshConn exBodyFinishes).2.1.count TxCall.callBegin = 1
      ∧ (transactionRun exFreshConn exBodyFinishes).2.1.count TxCall.callCommit
          = (if (none : Option Nat) = none ∧ true = true then 1 else 0)
      ∧ (transactionRun exFreshConn exBodyFinishes).2.1.count TxCall.callRollback
          = (if (none : Option Nat) = none ∧ true = true then 0 else 1)
      ∧ (transactionRun exFreshConn exBodyFinishes).2.2
          = Option.map TxOutcome.bodyExc (none : Option Nat)
      ∧ (transactionRun exFreshConn exBodyFinishes).1.in_trans = false
      ∧ (∀ e, (none : Option Nat) = some e →
          (transactionRun exFreshConn exBodyFinishes).2.1
            = [TxCall.callBegin, TxCall.callRollback])) :=
  ⟨by decide, rfl,
    c8_transaction_scope exFreshConn { exFreshConn with in_trans := true } none true
      exBodyFinishes (by decide) rfl⟩
